import Mathlib

/-!
Verification of the job-tracker front end (`src/components/Dashboard.tsx` and
the `JobForm` component) against its specification.

Modelling conventions:
* JavaScript strings are modelled as `List Char`; `toLowerCase` is the
  character-wise `Char.toLower` map; a JS *falsy* string (the empty string, or
  an absent/`undefined` field flowing through `?.`) is modelled as `[]`, so the
  JS `a || b` on strings becomes `jsOr a b` below.
* Time (`new Date().toISOString()`) and randomness (`crypto.randomUUID()`) are
  explicit input parameters of the modelled handlers.
* A fallible awaited SDK call is modelled by passing its outcome as an
  `Except String Unit` argument to the handler that awaits it.
-/

namespace JobTracker

/-- The five job statuses.  Modelled from the spec: the `JobStatus` type lives
in `src/types.ts`, which is not among the provided sources; spec §3 fixes it as
"one of PENDING/APPLIED/INTERVIEWING/ACCEPTED/REJECTED". -/
inductive JobStatus where
  | PENDING
  | APPLIED
  | INTERVIEWING
  | ACCEPTED
  | REJECTED
deriving DecidableEq

/-- A job record.  Modelled from the spec: the `Job` interface lives in
`src/types.ts`, which is not among the provided sources; spec §3 lists the
fields (id, company, position, status, location, salary, applicationDeadline,
interviewDate, notes, url, appliedDate, createdAt/updatedAt, owning user id).
Optional string fields are plain strings here, with `[]` standing for an
absent/empty value. -/
structure Job where
  id : List Char
  company : List Char
  position : List Char
  status : JobStatus
  location : List Char
  salary : List Char
  applicationDeadline : List Char
  interviewDate : List Char
  notes : List Char
  url : List Char
  appliedDate : List Char
  createdAt : List Char
  updatedAt : List Char
  userId : List Char
deriving DecidableEq

/-- JS `a || b` restricted to strings: returns `b` when `a` is falsy
(the empty string / an absent value), else `a`. -/
def jsOr (a b : List Char) : List Char :=
  if a = [] then b else a

/-- JS `s.toLowerCase()` (character-wise model). -/
def lowerStr (s : List Char) : List Char :=
  s.map Char.toLower

/-- Helper for `containsSub`: does `needle` occur at the very start of the
second list? (JS strings compare code units; `==` on `Char` here.) -/
def startsWith : List Char → List Char → Bool
  | [], _ => true
  | _ :: _, [] => false
  | a :: as, b :: bs => a == b && startsWith as bs

/-- JS `hay.includes(needle)`: `needle` occurs contiguously in `hay`. -/
def containsSub (needle : List Char) : List Char → Bool
  | [] => needle.isEmpty
  | c :: rest => startsWith needle (c :: rest) || containsSub needle rest

/-- One disjunct of the Dashboard search predicate:
`field.toLowerCase().includes(search.toLowerCase())`
(Dashboard.tsx lines 92–96). -/
def fieldMatches (search field : List Char) : Bool :=
  containsSub (lowerStr search) (lowerStr field)

/-- The predicate of `jobs.filter` in `filteredJobs` (Dashboard.tsx 92–96). -/
def jobMatches (search : List Char) (job : Job) : Bool :=
  fieldMatches search job.company ||
  fieldMatches search job.position ||
  fieldMatches search job.location

/-- `filteredJobs` (Dashboard.tsx 92–96). -/
def filteredJobs (jobs : List Job) (search : List Char) : List Job :=
  jobs.filter (jobMatches search)

/-- Specification-side predicate, written from the spec's words: `field`
contains `q` as a case-insensitive substring, i.e. some contiguous piece of
`field` lowercases to the lowercase of `q`. -/
def CIContains (q field : List Char) : Prop :=
  ∃ l m r, field = l ++ m ++ r ∧ lowerStr m = lowerStr q

/-- The statuses of the five boards, in the order of the `boards` array
(Dashboard.tsx 98–129). -/
def boardStatuses : List JobStatus :=
  [JobStatus.PENDING, JobStatus.APPLIED, JobStatus.INTERVIEWING,
   JobStatus.ACCEPTED, JobStatus.REJECTED]

/-- The jobs handed to the `StatusBoard` of status `s`:
`filteredJobs.filter(job => job.status === board.status)`
(Dashboard.tsx 170–181). -/
def boardJobs (filtered : List Job) (s : JobStatus) : List Job :=
  filtered.filter (fun job => job.status = s)

/-- The `status` values offered by the JobForm's select element, in document
order (`part_000` lines 101–112). -/
def formStatusOptions : List JobStatus :=
  [JobStatus.PENDING, JobStatus.APPLIED, JobStatus.INTERVIEWING,
   JobStatus.REJECTED, JobStatus.ACCEPTED]

/-- The JobForm's `formData` state (`Partial<Job>`).  The nine fields managed
by form inputs are plain values; `notes` is optional to reflect that
`handleSubmit` guards it with `|| ''`.  `carried` holds the job the state was
initialised from (the fields of an editing job spread into `formData` and
never touched by any input), or `none` in create mode. -/
structure FormData where
  company : List Char
  position : List Char
  status : JobStatus
  location : List Char
  salary : List Char
  applicationDeadline : List Char
  interviewDate : List Char
  notes : Option (List Char)
  url : List Char
  carried : Option Job
deriving DecidableEq

/-- The initial `formData`: `job || { company: '', ..., status: 'PENDING', ... }`
(`part_000` lines 12–24). -/
def initialFormData (job : Option Job) : FormData :=
  match job with
  | some j =>
      { company := j.company, position := j.position, status := j.status,
        location := j.location, salary := j.salary,
        applicationDeadline := j.applicationDeadline,
        interviewDate := j.interviewDate, notes := some j.notes, url := j.url,
        carried := some j }
  | none =>
      { company := [], position := [], status := JobStatus.PENDING,
        location := [], salary := [], applicationDeadline := [],
        interviewDate := [], notes := some [], url := [], carried := none }

/-- `JobForm.handleSubmit` (`part_000` lines 26–35): the job passed to
`onSubmit` is `formData` spread, with
`id: job?.id || crypto.randomUUID()`,
`appliedDate: job?.appliedDate || new Date().toISOString()`, and
`notes: formData.notes || ''`.  `job` is the prop (the job being edited, or
`none`); `freshId` models `crypto.randomUUID()`; `nowIso` models
`new Date().toISOString()`.  The fields not managed by a form input
(`createdAt`, `updatedAt`, `userId`) flow through the spread of `formData`
from the carried job, and are absent (`[]`) in create mode. -/
def jobFormSubmit (job : Option Job) (fd : FormData) (freshId nowIso : List Char) : Job :=
  { company := fd.company, position := fd.position, status := fd.status,
    location := fd.location, salary := fd.salary,
    applicationDeadline := fd.applicationDeadline,
    interviewDate := fd.interviewDate, url := fd.url,
    createdAt := (fd.carried.map Job.createdAt).getD [],
    updatedAt := (fd.carried.map Job.updatedAt).getD [],
    userId := (fd.carried.map Job.userId).getD [],
    id := jsOr ((job.map Job.id).getD []) freshId,
    appliedDate := jsOr ((job.map Job.appliedDate).getD []) nowIso,
    notes := jsOr (fd.notes.getD []) [] }

/-- A Firestore write issued by the Dashboard: `addDoc` on the `jobs`
collection, or `updateDoc` on the document named by the first component. -/
inductive WriteOp where
  | add (payload : Job)
  | update (docId : List Char) (payload : Job)
deriving DecidableEq

/-- The payload of a write. -/
def writePayload : WriteOp → Job
  | WriteOp.add p => p
  | WriteOp.update _ p => p

/-- The write issued by `Dashboard.handleSubmit` (Dashboard.tsx 56–80):
when `editingJob` is set, `updateDoc(doc(db, 'jobs', job.id),
{ ...job, userId: user?.uid, updatedAt: now })`; otherwise
`addDoc(collection(db, 'jobs'), { ...job, userId: user?.uid, createdAt: now,
updatedAt: now })`.  `uid` models `user?.uid` and `now` the
`new Date().toISOString()` evaluated in the handler. -/
def dashboardWrite (editingJob : Option Job) (job : Job) (uid now : List Char) : WriteOp :=
  match editingJob with
  | some _ => WriteOp.update job.id { job with userId := uid, updatedAt := now }
  | none => WriteOp.add { job with userId := uid, createdAt := now, updatedAt := now }

/-- A Firestore snapshot document: the document id assigned by Firestore and
the stored data.  Stored data is modelled as a full `Job` record: every
document this app writes spreads a `Job`, so its data always carries an `id`
field. -/
structure SnapshotDoc where
  docId : List Char
  data : Job
deriving DecidableEq

/-- The subscription query
`query(collection(db, 'jobs'), where('userId', '==', user.uid))`
(Dashboard.tsx 31): the snapshot holds exactly the documents whose stored
`userId` equals `uid`. -/
def queryDocs (docs : List SnapshotDoc) (uid : List Char) : List SnapshotDoc :=
  docs.filter (fun d => d.data.userId = uid)

/-- The snapshot mapping `{ id: doc.id, ...doc.data() }` (Dashboard.tsx 33–36):
the spread comes after the `id:` key, so the `id` field stored in the data
(always present, see `SnapshotDoc`) wins over `doc.id`. -/
def snapshotJobs (docs : List SnapshotDoc) : List Job :=
  docs.map (fun d => d.data)

/-- A toast shown by `react-hot-toast`. -/
inductive Toast where
  | success (msg : List Char)
  | error (msg : List Char)
deriving DecidableEq

/-- Outcome of one invocation of `Dashboard.handleSubmit` (Dashboard.tsx
56–80), given the result `writeRes` of the single awaited Firestore write.
`escaped` is an exception propagating out of the handler (the `try`/`catch`
swallows everything, so it is always `none`); `writesIssued` counts Firestore
write calls made (the write is attempted exactly once, never retried);
`formClosed` records whether `setShowForm(false)`/`setEditingJob(undefined)`
ran (skipped when the write throws). -/
structure SubmitOutcome where
  writesIssued : List WriteOp
  toasts : List Toast
  escaped : Option (List Char)
  formClosed : Bool
deriving DecidableEq

def runHandleSubmit (editingJob : Option Job) (job : Job) (uid now : List Char)
    (writeRes : Except (List Char) Unit) : SubmitOutcome :=
  let w := dashboardWrite editingJob job uid now
  match writeRes with
  | Except.ok _ =>
      { writesIssued := [w],
        toasts := [Toast.success (match editingJob with
          | some _ => "Job updated successfully".toList
          | none => "Job added successfully".toList)],
        escaped := none, formClosed := true }
  | Except.error _ =>
      { writesIssued := [w],
        toasts := [Toast.error "Error saving job".toList],
        escaped := none, formClosed := false }

/-- Outcome of `setupFirestore` (Dashboard.tsx 28–43), given the combined
result `setupRes` of the awaited `enableNetwork` and the query/`onSnapshot`
registration inside the `try`.  On failure the `catch` logs, toasts
`'Error loading data'`, and the function returns `undefined` (no
subscription); nothing escapes. -/
structure SetupOutcome where
  subscribed : Bool
  toasts : List Toast
  escaped : Option (List Char)
deriving DecidableEq

def runSetupFirestore (setupRes : Except (List Char) Unit) : SetupOutcome :=
  match setupRes with
  | Except.ok _ => { subscribed := true, toasts := [], escaped := none }
  | Except.error _ =>
      { subscribed := false,
        toasts := [Toast.error "Error loading data".toList],
        escaped := none }

/-- Outcome of `handleLogout` (Dashboard.tsx 82–90), given the results of the
awaited `disableNetwork(db)` and `logout()`.  Any failure is caught and
toasted; `navigate('/')` only runs when both succeed; nothing escapes. -/
structure LogoutOutcome where
  navigated : Bool
  toasts : List Toast
  escaped : Option (List Char)
deriving DecidableEq

def runHandleLogout (disableRes logoutRes : Except (List Char) Unit) : LogoutOutcome :=
  match disableRes with
  | Except.error _ =>
      { navigated := false,
        toasts := [Toast.error "Error logging out".toList], escaped := none }
  | Except.ok _ =>
      match logoutRes with
      | Except.error _ =>
          { navigated := false,
            toasts := [Toast.error "Error logging out".toList], escaped := none }
      | Except.ok _ => { navigated := true, toasts := [], escaped := none }

/-- An SDK-level event on the Firestore network / subscription, in the order
the Dashboard issues them. -/
inductive NetEvent where
  | enable
  | subscribe
  | unsubscribe
  | disable
  | authLogout
  | navigate
deriving DecidableEq

/-- The events of the mount effect (Dashboard.tsx 24–45) on the success path:
nothing without a logged-in user (`if (!user) return`); with a user,
`await enableNetwork(db)` strictly before `onSnapshot` registers the
subscription. -/
def mountEvents (user : Option (List Char)) : List NetEvent :=
  match user with
  | none => []
  | some _ => [NetEvent.enable, NetEvent.subscribe]

/-- The events of the effect cleanup (Dashboard.tsx 48–53): unsubscribe, then
`disableNetwork(db)`. -/
def unmountEvents : List NetEvent :=
  [NetEvent.unsubscribe, NetEvent.disable]

/-- The events of `handleLogout` (Dashboard.tsx 82–90), success path:
`await disableNetwork(db)`, `await logout()`, `navigate('/')`. -/
def logoutEvents : List NetEvent :=
  [NetEvent.disable, NetEvent.authLogout, NetEvent.navigate]

/-- Network-access state after one event: `enableNetwork` turns it on,
`disableNetwork` turns it off, other events leave it unchanged. -/
def applyNet (st : Bool) : NetEvent → Bool
  | NetEvent.enable => true
  | NetEvent.disable => false
  | _ => st

/-- Network-access state after a sequence of events. -/
def netAfter (st : Bool) : List NetEvent → Bool
  | [] => st
  | e :: es => netAfter (applyNet st e) es

/-- Sample jobs used at concrete evaluation points below. -/
def jobA : Job :=
  { id := ['j', '1'], company := ['A', 'c', 'm', 'e'],
    position := ['D', 'e', 'v'], status := JobStatus.APPLIED,
    location := ['N', 'Y'], salary := [], applicationDeadline := [],
    interviewDate := [], notes := [], url := [],
    appliedDate := ['d', '1'], createdAt := ['c', '1'],
    updatedAt := ['u', '1'], userId := ['o', 't', 'h', 'e', 'r'] }

/-- A stored job whose `id` field is the empty string (falsy in JS). -/
def jobEmptyId : Job :=
  { id := [], company := ['B'], position := ['Q', 'A'],
    status := JobStatus.PENDING, location := ['S', 'F'], salary := [],
    applicationDeadline := [], interviewDate := [], notes := [], url := [],
    appliedDate := ['d', '2'], createdAt := ['c', '2'],
    updatedAt := ['u', '2'], userId := ['m', 'e'] }

/-- A stored job with nonempty `id` and `appliedDate`, for the witness of the
amended edit-preservation claim. -/
def jobKept : Job :=
  { id := ['k', '9'], company := ['C'], position := ['P', 'M'],
    status := JobStatus.INTERVIEWING, location := ['L', 'A'], salary := [],
    applicationDeadline := [], interviewDate := [], notes := ['n'], url := [],
    appliedDate := ['d', '3'], createdAt := ['c', '3'],
    updatedAt := ['u', '3'], userId := ['m', 'e'] }

theorem startsWith_iff (q h : List Char) :
    startsWith q h = true ↔ ∃ r, h = q ++ r := by
  induction q generalizing h with
  | nil => simp [startsWith]
  | cons a as ih =>
    cases h with
    | nil =>
      simp only [startsWith, List.cons_append]
      constructor
      · intro hc; cases hc
      · rintro ⟨r, hr⟩; cases hr
    | cons b bs =>
      simp only [startsWith, Bool.and_eq_true, beq_iff_eq, ih, List.cons_append]
      constructor
      · rintro ⟨rfl, r, rfl⟩; exact ⟨r, rfl⟩
      · rintro ⟨r, hr⟩
        injection hr with h1 h2
        exact ⟨h1.symm, r, h2⟩

theorem containsSub_iff (q h : List Char) :
    containsSub q h = true ↔ ∃ l r, h = l ++ q ++ r := by
  induction h with
  | nil =>
    simp only [containsSub, List.isEmpty_iff]
    constructor
    · rintro rfl; exact ⟨[], [], rfl⟩
    · rintro ⟨l, r, hr⟩
      rcases List.append_eq_nil.mp hr.symm with ⟨h1, h2⟩
      exact (List.append_eq_nil.mp h1).2
  | cons c rest ih =>
    simp only [containsSub, Bool.or_eq_true, startsWith_iff, ih]
    constructor
    · rintro (⟨r, hr⟩ | ⟨l, r, hr⟩)
      · exact ⟨[], r, by simp [hr]⟩
      · exact ⟨c :: l, r, by simp [hr]⟩
    · rintro ⟨l, r, hr⟩
      cases l with
      | nil => exact Or.inl ⟨r, by simpa using hr⟩
      | cons c' l' =>
        right
        injection hr with h1 h2
        exact ⟨l', r, h2⟩

theorem fieldMatches_iff (q f : List Char) :
    fieldMatches q f = true ↔ CIContains q f := by
  unfold fieldMatches CIContains
  rw [containsSub_iff]
  constructor
  · rintro ⟨L, R, hLR⟩
    refine ⟨f.take L.length, (f.drop L.length).take q.length,
      (f.drop L.length).drop q.length, ?_, ?_⟩
    · rw [List.append_assoc, List.take_append_drop, List.take_append_drop]
    · have hdrop : (f.drop L.length).map Char.toLower = lowerStr q ++ R := by
        have : (f.map Char.toLower).drop L.length = lowerStr q ++ R := by
          rw [show f.map Char.toLower = lowerStr f from rfl, hLR, List.append_assoc,
            List.drop_left]
        rw [List.map_drop]; exact this
      have hlen : (lowerStr q).length = q.length := by simp [lowerStr]
      calc lowerStr ((f.drop L.length).take q.length)
          = ((f.drop L.length).map Char.toLower).take q.length := by
            simp [lowerStr, List.map_take]
        _ = (lowerStr q ++ R).take (lowerStr q).length := by rw [hdrop, hlen]
        _ = lowerStr q := List.take_left _ _
  · rintro ⟨l, m, r, rfl, hm⟩
    refine ⟨lowerStr l, lowerStr r, ?_⟩
    simp only [lowerStr] at hm ⊢
    simp [List.map_append, hm]

/-- **C1.** For every list of jobs and every search string, the Dashboard's
`filteredJobs` contains exactly those jobs whose company, position, or location
contains the search string as a case-insensitive substring; all other jobs are
excluded. -/
theorem mem_filteredJobs_iff (jobs : List Job) (search : List Char) (j : Job) :
    j ∈ filteredJobs jobs search ↔
      j ∈ jobs ∧
        (CIContains search j.company ∨ CIContains search j.position ∨
          CIContains search j.location) := by
  unfold filteredJobs
  rw [List.mem_filter]
  unfold jobMatches
  simp only [Bool.or_eq_true, fieldMatches_iff]
  tauto

theorem containsSub_nil_left (h : List Char) : containsSub [] h = true := by
  cases h <;> simp [containsSub, startsWith]

/-- **C10.** Filtering with the empty search string keeps every job, and for
every search string the filtered list is a sublist of the input, so the
relative order of the kept jobs is preserved. -/
theorem filter_empty_identity_and_sublist (jobs : List Job) (search : List Char) :
    filteredJobs jobs [] = jobs ∧ List.Sublist (filteredJobs jobs search) jobs := by
  constructor
  · unfold filteredJobs
    apply List.filter_eq_self.mpr
    intro j _
    simp [jobMatches, fieldMatches, lowerStr, containsSub_nil_left]
  · exact List.filter_sublist jobs

/-- **C2.** The five status boards partition the filtered list by status: the
board for status `s` receives exactly the filtered jobs whose status equals
`s`, and every filtered job appears on exactly one of the five boards. -/
theorem boards_partition (filtered : List Job) (s : JobStatus) (j : Job) :
    (j ∈ boardJobs filtered s ↔ j ∈ filtered ∧ j.status = s) ∧
    (j ∈ filtered → ∃! t, t ∈ boardStatuses ∧ j ∈ boardJobs filtered t) := by
  have hmem : ∀ t : JobStatus, j ∈ boardJobs filtered t ↔ j ∈ filtered ∧ j.status = t := by
    intro t
    unfold boardJobs
    rw [List.mem_filter]
    simp
  refine ⟨hmem s, fun hj => ⟨j.status, ⟨?_, (hmem j.status).mpr ⟨hj, rfl⟩⟩, ?_⟩⟩
  · cases j.status <;> simp [boardStatuses]
  · rintro t ⟨-, hmemt⟩
    exact ((hmem t).mp hmemt).2.symm

/-- **C3.** Creating a job via form submission (no editing job): the submitted
record carries the fresh random UUID as `id` and the form-time timestamp as
`appliedDate`, and the create handler's add payload stamps `createdAt` and
`updatedAt` with the handler-time timestamp (and the current user's uid). -/
theorem create_submission_fields (fd : FormData) (freshId nowForm uid nowWrite : List Char) :
    ∃ p, dashboardWrite none (jobFormSubmit none fd freshId nowForm) uid nowWrite
        = WriteOp.add p ∧
      p.id = freshId ∧ p.appliedDate = nowForm ∧
      p.createdAt = nowWrite ∧ p.updatedAt = nowWrite ∧ p.userId = uid := by
  refine ⟨_, rfl, ?_, ?_, rfl, rfl, rfl⟩
  · simp [dashboardWrite, jobFormSubmit, jsOr]
  · simp [dashboardWrite, jobFormSubmit, jsOr]

/-- **C4 (counterexample).** The update payload does not take `userId` from
the submitted form data: editing `jobA` (whose `userId` is `"other"`) while
logged in as uid `"me"` stores userId `"me"`, so not all fields other than
`updatedAt` come from the form data. -/
theorem update_userId_not_from_form :
    (writePayload (dashboardWrite (some jobA) jobA ['m', 'e'] ['t'])).userId
      ≠ jobA.userId := by
  decide

/-- **C4 (amended).** For every job mutated via form edit, the update written
to the database refreshes `updatedAt` to the current time and stamps `userId`
with the current user's uid; every other field is taken from the submitted
form data, and the document updated is the one named by the submitted id. -/
theorem update_payload_fields (e job : Job) (uid now : List Char) :
    ∃ p, dashboardWrite (some e) job uid now = WriteOp.update job.id p ∧
      p.updatedAt = now ∧ p.userId = uid ∧
      p.id = job.id ∧ p.company = job.company ∧ p.position = job.position ∧
      p.status = job.status ∧ p.location = job.location ∧
      p.salary = job.salary ∧
      p.applicationDeadline = job.applicationDeadline ∧
      p.interviewDate = job.interviewDate ∧ p.notes = job.notes ∧
      p.url = job.url ∧ p.appliedDate = job.appliedDate ∧
      p.createdAt = job.createdAt :=
  ⟨_, rfl, rfl, rfl, rfl, rfl, rfl, rfl, rfl, rfl, rfl, rfl, rfl, rfl, rfl, rfl⟩

/-- **C5.** Ownership/status invariant: every Dashboard write stamps the
payload with the current user's uid; the subscription only yields jobs whose
`userId` equals the current uid; the form's initial status is `PENDING` and
every status value is one of the five offered by the form's select. -/
theorem job_ownership_status_invariant :
    (∀ (e : Option Job) (j : Job) (uid now : List Char),
        (writePayload (dashboardWrite e j uid now)).userId = uid) ∧
    (∀ (docs : List SnapshotDoc) (uid : List Char) (j : Job),
        j ∈ snapshotJobs (queryDocs docs uid) → j.userId = uid) ∧
    (initialFormData none).status = JobStatus.PENDING ∧
    (∀ s : JobStatus, s ∈ formStatusOptions) := by
  refine ⟨?_, ?_, rfl, ?_⟩
  · rintro (_ | e) j uid now <;> rfl
  · intro docs uid j hj
    simp only [snapshotJobs, queryDocs, List.mem_map] at hj
    obtain ⟨d, hd, rfl⟩ := hj
    have := (List.mem_filter.mp hd).2
    simpa using this
  · intro s; cases s <;> simp [formStatusOptions]

/-- **C6.** Every failure of subscription setup, of a write, or of logout is
caught locally (`escaped = none`, so the process never terminates on them)
and surfaced as a toast; the write is issued exactly once per submission
(never retried). -/
theorem handlers_catch_all_failures :
    (∀ setupRes, (runSetupFirestore setupRes).escaped = none) ∧
    (∀ msg, (runSetupFirestore (Except.error msg)).toasts
        = [Toast.error "Error loading data".toList]) ∧
    (∀ e j uid now writeRes,
        (runHandleSubmit e j uid now writeRes).escaped = none ∧
        (runHandleSubmit e j uid now writeRes).writesIssued.length = 1) ∧
    (∀ e j uid now msg, (runHandleSubmit e j uid now (Except.error msg)).toasts
        = [Toast.error "Error saving job".toList]) ∧
    (∀ disableRes logoutRes,
        (runHandleLogout disableRes logoutRes).escaped = none) ∧
    (∀ msg logoutRes, (runHandleLogout (Except.error msg) logoutRes).toasts
        = [Toast.error "Error logging out".toList]) ∧
    (∀ disableRes msg, (runHandleLogout disableRes (Except.error msg)).toasts
        = [Toast.error "Error logging out".toList]) := by
  refine ⟨?_, fun msg => rfl, ?_, fun e j uid now msg => ?_, ?_, fun msg l => rfl, ?_⟩
  · rintro (msg | u) <;> rfl
  · rintro e j uid now (msg | u) <;> exact ⟨rfl, rfl⟩
  · cases e <;> rfl
  · rintro (msg | u) (msg2 | u2) <;> rfl
  · rintro (msg | u) msg2 <;> rfl

/-- **C7.** Network lifecycle: mounting with a logged-in user enables the
network strictly before the subscription is created; mounting without a user
touches nothing; after the unmount cleanup, and after a successful logout,
network access is disabled regardless of the state it started in. -/
theorem network_toggle_lifecycle :
    (∀ uid : List Char,
        mountEvents (some uid) = [NetEvent.enable, NetEvent.subscribe]) ∧
    mountEvents none = [] ∧
    (∀ st, netAfter st unmountEvents = false) ∧
    (∀ st, netAfter st logoutEvents = false) :=
  ⟨fun _ => rfl, rfl, fun _ => rfl, fun _ => rfl⟩

/-- **C8 (counterexample).** Editing a stored job whose `id` is the empty
string: the submitted record receives a fresh UUID instead of the original
id, because the source guards with the falsy-or
`job?.id || crypto.randomUUID()`. -/
theorem edit_empty_id_regenerated :
    (jobFormSubmit (some jobEmptyId) (initialFormData (some jobEmptyId))
        ['u', 'u'] ['t', 't']).id ≠ jobEmptyId.id := by
  decide

/-- **C8 (amended).** Editing an existing job whose `id` and `appliedDate` are
nonempty (hence truthy in JS): the submitted record reuses the original id and
the original appliedDate; an empty id or appliedDate would instead be replaced
by a fresh UUID / the current time. -/
theorem edit_keeps_nonempty_id_appliedDate (j : Job) (fd : FormData)
    (freshId nowIso : List Char) (hid : j.id ≠ []) (hdate : j.appliedDate ≠ []) :
    (jobFormSubmit (some j) fd freshId nowIso).id = j.id ∧
    (jobFormSubmit (some j) fd freshId nowIso).appliedDate = j.appliedDate := by
  constructor <;> simp [jobFormSubmit, jsOr, hid, hdate]

/-- Witness for the amended C8 at a concrete job with nonempty id and
appliedDate. -/
theorem edit_keeps_nonempty_id_appliedDate_witness :
    jobKept.id ≠ [] ∧ jobKept.appliedDate ≠ [] ∧
    ((jobFormSubmit (some jobKept) (initialFormData (some jobKept))
        ['u'] ['t']).id = jobKept.id ∧
     (jobFormSubmit (some jobKept) (initialFormData (some jobKept))
        ['u'] ['t']).appliedDate = jobKept.appliedDate) :=
  ⟨by decide, by decide,
    edit_keeps_nonempty_id_appliedDate jobKept (initialFormData (some jobKept))
      ['u'] ['t'] (by decide) (by decide)⟩

/-- **C9.** Every form submission yields a record whose `notes` is a defined
string: the value of the notes field, or the empty string when that field is
blank or absent.  A form opened without an existing job starts with status
`PENDING` and empty strings for all text fields. -/
theorem notes_defined_and_initial_form :
    (∀ (job : Option Job) (fd : FormData) (freshId nowIso : List Char),
        (jobFormSubmit job fd freshId nowIso).notes = fd.notes.getD []) ∧
    (initialFormData none).status = JobStatus.PENDING ∧
    (initialFormData none).company = [] ∧
    (initialFormData none).position = [] ∧
    (initialFormData none).location = [] ∧
    (initialFormData none).salary = [] ∧
    (initialFormData none).applicationDeadline = [] ∧
    (initialFormData none).interviewDate = [] ∧
    (initialFormData none).notes = some [] ∧
    (initialFormData none).url = [] := by
  refine ⟨?_, rfl, rfl, rfl, rfl, rfl, rfl, rfl, rfl, rfl⟩
  intro job fd freshId nowIso
  simp only [jobFormSubmit, jsOr]
  split_ifs with h
  · exact h.symm
  · rfl

end JobTracker
